import Mathlib

/-!
Verification of `lib/review.py`, the ORM class `Review` of this repository.

Modelling conventions (shallow embedding):

* Python values reaching the validating setters are modelled by `PyVal`
  (an integer, a string, `None`, or any other object).  Python's `bool` is a
  subtype of `int`, so booleans are subsumed by the integer constructor.
* Python exceptions are modelled by `Except PyErr`: `ValueError` (the single
  validation error the class raises), `KeyError` (from `del dict[key]` on a
  missing key) and `AttributeError` (a dangling reference; unreachable in the
  scenarios proved below, kept only to make the functions total).
  An operation that raises discards its partially-mutated state, except for
  `Review.delete_`, whose claim needs the state left behind by the failure,
  so it returns the state alongside the optional error.
* Object identity is explicit: `Review` instances live on a heap addressed by
  `Ref`; the class-level identity cache `Review.all` is a dictionary from the
  `id` attribute (an `Option Int`, since `self.id` may be `None`) to a `Ref`.
* The sqlite table `reviews` is a list of rows plus the next generated row id;
  `INSERT` appends and `lastrowid` returns the generated id; `SELECT ... WHERE
  id = ?` returns the first matching row; `UPDATE`/`DELETE ... WHERE id = ?`
  with a `None` parameter match no row, as in SQL.
-/

/-- A Python value as seen by the property setters of `Review`. -/
inductive PyVal where
  | vInt (n : Int)
  | vStr (s : String)
  | vNone
  | vOther
  deriving DecidableEq, Repr

/-- The Python exceptions the modelled code can raise. -/
inductive PyErr where
  | valueError (msg : String)
  | keyError
  | attributeError
  deriving DecidableEq, Repr

/-- The code points Python's `str.strip()` removes: CPython's Unicode
whitespace table (0x09-0x0D, 0x1C-0x1F, space, NEL, NBSP, Ogham space mark,
the 0x2000-0x200A spaces, line and paragraph separators, narrow no-break
space, medium mathematical space, ideographic space). -/
def pyWhitespace : List Nat :=
  [0x09, 0x0A, 0x0B, 0x0C, 0x0D, 0x1C, 0x1D, 0x1E, 0x1F, 0x20, 0x85, 0xA0,
   0x1680, 0x2000, 0x2001, 0x2002, 0x2003, 0x2004, 0x2005, 0x2006, 0x2007,
   0x2008, 0x2009, 0x200A, 0x2028, 0x2029, 0x202F, 0x205F, 0x3000]

/-- Whether `str.strip()` removes this character. -/
def pyIsSpace (c : Char) : Bool :=
  pyWhitespace.contains c.toNat

/-- Python's `str.strip()`: drop leading and trailing whitespace. -/
def pyStrip (t : String) : String :=
  String.mk (((t.data.dropWhile pyIsSpace).reverse.dropWhile pyIsSpace).reverse)

/-- Modelled from the spec: `employee.py` is not under `src/`; the spec says the
Employee collaborator exposes a find-by-id lookup "returning a found record or
an absence signal".  The Employee store is modelled as the list of existing
employee ids, and the lookup as membership (found = truthy record). -/
def Employee.find_by_id (emps : List Int) (n : Int) : Bool :=
  emps.contains n

/-- The attribute state of one `Review` instance: `id` (which is `None` before
the first `save`) and the three validated fields `_year`, `_summary`,
`_employee_id`. -/
structure ReviewObj where
  id : Option Int
  year : Int
  summary : String
  employee_id : Int
  deriving DecidableEq, Repr

/-- `@year.setter`: requires `isinstance(year, int) and year >= 2000`,
else raises `ValueError`. -/
def Review.setYear (o : ReviewObj) (v : PyVal) : Except PyErr ReviewObj :=
  match v with
  | .vInt n =>
      if 2000 ≤ n then .ok { o with year := n }
      else .error (.valueError "Year must be integer >= 2000")
  | _ => .error (.valueError "Year must be integer >= 2000")

/-- `@summary.setter`: requires `isinstance(summary, str) and
len(summary.strip()) > 0`, else raises `ValueError`; stores the original
(untrimmed) string. -/
def Review.setSummary (o : ReviewObj) (v : PyVal) : Except PyErr ReviewObj :=
  match v with
  | .vStr t =>
      if 0 < (pyStrip t).length then .ok { o with summary := t }
      else .error (.valueError "Summary must be non-empty string")
  | _ => .error (.valueError "Summary must be non-empty string")

/-- `@employee_id.setter`: requires `isinstance(employee_id, int) and
Employee.find_by_id(employee_id)`, else raises `ValueError`. -/
def Review.setEmployeeId (emps : List Int) (o : ReviewObj) (v : PyVal) :
    Except PyErr ReviewObj :=
  match v with
  | .vInt n =>
      if Employee.find_by_id emps n then .ok { o with employee_id := n }
      else .error (.valueError "employee_id must reference existing Employee")
  | _ => .error (.valueError "employee_id must reference existing Employee")

/-- One row of the `reviews` table: `(id, year, summary, employee_id)`. -/
structure Row where
  id : Int
  year : Int
  summary : String
  employee_id : Int
  deriving DecidableEq, Repr

/-- The `reviews` table together with the next row id the engine will
generate for an `INSERT` (`id INTEGER PRIMARY KEY`). -/
structure Db where
  rows : List Row
  nextId : Int
  deriving DecidableEq, Repr

/-- A reference to a live `Review` instance (object identity). -/
abbrev Ref := Nat

/-- The heap of live `Review` instances. -/
abbrev Heap := List (Ref × ReviewObj)

/-- The identity cache `Review.all`: a dictionary keyed by the instance's
`id` attribute. -/
abbrev Cache := List (Option Int × Ref)

/-- Dictionary lookup (first entry wins, insertion prepends). -/
def heapGet (h : Heap) (r : Ref) : Option ReviewObj :=
  (h.find? (fun p => p.fst == r)).map Prod.snd

/-- Dictionary write: prepend, shadowing any earlier entry for the key. -/
def heapSet (h : Heap) (r : Ref) (o : ReviewObj) : Heap :=
  (r, o) :: h

/-- `Review.all.get(k)`. -/
def cacheGet (c : Cache) (k : Option Int) : Option Ref :=
  (c.find? (fun p => p.fst == k)).map Prod.snd

/-- `Review.all[k] = r`. -/
def cacheSet (c : Cache) (k : Option Int) (r : Ref) : Cache :=
  (k, r) :: c

/-- `del Review.all[k]` once the key is known to be present. -/
def cacheErase (c : Cache) (k : Option Int) : Cache :=
  c.filter (fun p => p.fst != k)

/-- The whole program state: the `reviews` table, the existing employee ids
(the collaborator's store), the heap of live instances, a fresh-reference
counter, and the identity cache `Review.all`. -/
structure State where
  db : Db
  emps : List Int
  heap : Heap
  nextRef : Ref
  cache : Cache
  deriving DecidableEq, Repr

/-- `Review.__init__`: set `self.id`, then run the three setters in order
(`year`, then `summary`, then `employee_id`); any failure propagates and no
instance results.  The start object holds inert defaults that a success
always overwrites. -/
def ReviewObj.mkNew (emps : List Int) (y m e : PyVal) (id : Option Int) :
    Except PyErr ReviewObj :=
  match Review.setYear ⟨id, 0, "", 0⟩ y with
  | .error err => .error err
  | .ok o1 =>
    match Review.setSummary o1 m with
    | .error err => .error err
    | .ok o2 => Review.setEmployeeId emps o2 e

/-- `Review(year, summary, employee_id, id=None)`: validate, then allocate a
fresh instance on the heap and return its reference. -/
def Review.new (s : State) (y m e : PyVal) (id : Option Int) :
    Except PyErr (State × Ref) :=
  match ReviewObj.mkNew s.emps y m e id with
  | .error err => .error err
  | .ok o =>
      .ok ({ s with heap := heapSet s.heap s.nextRef o,
                    nextRef := s.nextRef + 1 }, s.nextRef)

/-- `Review.save`: `INSERT` a row holding the instance's current field values,
assign `CURSOR.lastrowid` to `self.id`, and cache the instance under that
id (`type(self).all[self.id] = self`). -/
def Review.save (s : State) (r : Ref) : Except PyErr State :=
  match heapGet s.heap r with
  | none => .error .attributeError
  | some o =>
      .ok { s with
        db := { rows := s.db.rows ++
                  [⟨s.db.nextId, o.year, o.summary, o.employee_id⟩],
                nextId := s.db.nextId + 1 },
        heap := heapSet s.heap r { o with id := some s.db.nextId },
        cache := cacheSet s.cache (some s.db.nextId) r }

/-- `Review.create`: construct, `save`, return the instance. -/
def Review.create (s : State) (y m e : PyVal) : Except PyErr (State × Ref) :=
  match Review.new s y m e none with
  | .error err => .error err
  | .ok (s1, r) =>
    match Review.save s1 r with
    | .error err => .error err
    | .ok s2 => .ok (s2, r)

/-- `Review.instance_from_db(row)`: if `Review.all` holds an instance for
`row[0]`, re-assign its three fields through the setters and return it;
otherwise construct a new instance from the row, assign its `id`, cache it
and return it. -/
def Review.instance_from_db (s : State) (row : Row) :
    Except PyErr (State × Ref) :=
  match cacheGet s.cache (some row.id) with
  | some r =>
    match heapGet s.heap r with
    | none => .error .attributeError
    | some o =>
      match Review.setYear o (.vInt row.year) with
      | .error err => .error err
      | .ok o1 =>
        match Review.setSummary o1 (.vStr row.summary) with
        | .error err => .error err
        | .ok o2 =>
          match Review.setEmployeeId s.emps o2 (.vInt row.employee_id) with
          | .error err => .error err
          | .ok o3 => .ok ({ s with heap := heapSet s.heap r o3 }, r)
  | none =>
    match Review.new s (.vInt row.year) (.vStr row.summary)
        (.vInt row.employee_id) none with
    | .error err => .error err
    | .ok (s1, r) =>
      match heapGet s1.heap r with
      | none => .error .attributeError
      | some o =>
          .ok ({ s1 with heap := heapSet s1.heap r { o with id := some row.id },
                         cache := cacheSet s1.cache (some row.id) r }, r)

/-- `SELECT * FROM reviews WHERE id = ?` followed by `fetchone()`. -/
def sqlSelectById (rows : List Row) (n : Int) : Option Row :=
  rows.find? (fun row => row.id == n)

/-- `Review.find_by_id(id)`: fetch the row, and return the canonical instance
via `instance_from_db`, or `None` when no row matches. -/
def Review.find_by_id (s : State) (n : Int) : Except PyErr (State × Option Ref) :=
  match sqlSelectById s.db.rows n with
  | none => .ok (s, none)
  | some row =>
    match Review.instance_from_db s row with
    | .error err => .error err
    | .ok (s1, r) => .ok (s1, some r)

/-- `Review.update`: `UPDATE reviews SET year = ?, summary = ?, employee_id = ?
WHERE id = ?` with the instance's current values; a `None` id matches no row. -/
def Review.update (s : State) (r : Ref) : Except PyErr State :=
  match heapGet s.heap r with
  | none => .error .attributeError
  | some o =>
      .ok { s with db := { s.db with rows := s.db.rows.map (fun row =>
        if o.id == some row.id then
          { row with year := o.year, summary := o.summary,
                     employee_id := o.employee_id }
        else row) } }

/-- `Review.delete`: `DELETE FROM reviews WHERE id = ?` (committed first),
then `del type(self).all[self.id]` — which raises `KeyError` when the key is
absent, keeping the cache, the heap and `self.id` as they were — and finally
`self.id = None`.  Returns the state left behind together with the raised
exception, if any. -/
def Review.delete_ (s : State) (r : Ref) : State × Option PyErr :=
  match heapGet s.heap r with
  | none => (s, some .attributeError)
  | some o =>
    match cacheGet s.cache o.id with
    | none =>
        ({ s with db := { s.db with
           rows := s.db.rows.filter (fun row => !(o.id == some row.id)) } },
         some .keyError)
    | some _ =>
        ({ s with
           db := { s.db with
             rows := s.db.rows.filter (fun row => !(o.id == some row.id)) },
           cache := cacheErase s.cache o.id,
           heap := heapSet s.heap r { o with id := none } }, none)

/-- The list comprehension of `Review.get_all` over an explicit row list:
`instance_from_db` on each row in order, the first exception propagating. -/
def Review.instancesFromRows (s : State) : List Row →
    Except PyErr (State × List Ref)
  | [] => .ok (s, [])
  | row :: rest =>
    match Review.instance_from_db s row with
    | .error err => .error err
    | .ok (s1, r) =>
      match Review.instancesFromRows s1 rest with
      | .error err => .error err
      | .ok (s2, rs) => .ok (s2, r :: rs)

/-- `Review.get_all`: `SELECT * FROM reviews`, then the canonical instance for
every row in storage order. -/
def Review.get_all (s : State) : Except PyErr (State × List Ref) :=
  Review.instancesFromRows s s.db.rows

/-- `review.summary = value`: attribute assignment through the `summary`
property setter on a live instance. -/
def Review.assignSummary (s : State) (r : Ref) (v : PyVal) :
    Except PyErr State :=
  match heapGet s.heap r with
  | none => .error .attributeError
  | some o =>
    match Review.setSummary o v with
    | .error err => .error err
    | .ok o' => .ok { s with heap := heapSet s.heap r o' }

/-- A transient instance used to exercise the setters at concrete inputs. -/
def oW : ReviewObj := ⟨none, 2023, "ok", 1⟩

/-- A fresh state: empty table, employee 1 exists, no live instances. -/
def s0W : State := ⟨⟨[], 1⟩, [1], [], 0, []⟩

/-- A state holding one persisted row (id 1) that no instance has fetched
yet. -/
def sRowW : State := ⟨⟨[⟨1, 2023, "Good work", 1⟩], 2⟩, [1], [], 0, []⟩

/-- `sRowW` after `find_by_id(1)` has fetched and cached the row's
instance. -/
def sRowW1 : State :=
  ⟨⟨[⟨1, 2023, "Good work", 1⟩], 2⟩, [1],
   [(0, ⟨some 1, 2023, "Good work", 1⟩), (0, ⟨none, 2023, "Good work", 1⟩)],
   1, [(some 1, 0)]⟩

/-- A state holding one unfetched row whose stored year violates the `year`
invariant. -/
def sBadW : State := ⟨⟨[⟨1, 1999, "Good work", 1⟩], 2⟩, [1], [], 0, []⟩

/-- A state with one transient instance (id `None`) on the heap and an empty
cache. -/
def sTransW : State := ⟨⟨[], 1⟩, [1], [(0, oW)], 1, []⟩

/-- A state as left by `create(2023, "Good work", 1)` on `s0W`: one row,
its live instance cached under id 1. -/
def sCreatedW : State :=
  ⟨⟨[⟨1, 2023, "Good work", 1⟩], 2⟩, [1],
   [(0, ⟨some 1, 2023, "Good work", 1⟩), (0, ⟨none, 2023, "Good work", 1⟩)],
   1, [(some 1, 0)]⟩

/-- The state a successful `create(y, m, e)` leaves behind: the inserted row,
the advanced row id, the allocated instance (first transient, then with its
id assigned), and the cache entry for the new id. -/
def createdState (s : State) (y e : Int) (m : String) : State :=
  { db := ⟨s.db.rows ++ [⟨s.db.nextId, y, m, e⟩], s.db.nextId + 1⟩,
    emps := s.emps,
    heap := heapSet (heapSet s.heap s.nextRef ⟨none, y, m, e⟩) s.nextRef
      ⟨some s.db.nextId, y, m, e⟩,
    nextRef := s.nextRef + 1,
    cache := cacheSet s.cache (some s.db.nextId) s.nextRef }

/-- `createdState` after the attribute assignment `instance.summary = m2`. -/
def assignedState (s : State) (y e : Int) (m m2 : String) : State :=
  { createdState s y e m with
    heap := heapSet (createdState s y e m).heap s.nextRef ⟨some s.db.nextId, y, m2, e⟩ }

/-- `assignedState` after `update` has re-synchronized the row: the `UPDATE`
rewrites every row whose id matches the instance's id. -/
def updatedState (s : State) (y e : Int) (m m2 : String) : State :=
  { assignedState s y e m m2 with
    db := ⟨(s.db.rows ++ [(⟨s.db.nextId, y, m, e⟩ : Row)]).map
      (fun row : Row => if (some s.db.nextId : Option Int) == some row.id then
        { row with year := y, summary := m2, employee_id := e } else row),
      s.db.nextId + 1⟩ }

/-- Well-formedness of the interpreter state: every reference held by the
identity cache points at a live instance on the heap.  Every state the
program can build satisfies this (the cache only ever receives references to
just-allocated or just-fetched instances), and every operation below
preserves it. -/
def stateWF (s : State) : Prop :=
  ∀ k r, cacheGet s.cache k = some r → ∃ o, heapGet s.heap r = some o

/-- A state holding one valid row followed by a row whose stored year
violates the `year` invariant, neither fetched yet. -/
def sBad2W : State :=
  ⟨⟨[⟨1, 2023, "Good work", 1⟩, ⟨2, 1999, "Bad", 1⟩], 3⟩, [1], [], 0, []⟩

/-- A row whose stored values pass all three validating setters in the given
employee store. -/
def rowValid (emps : List Int) (row : Row) : Prop :=
  2000 ≤ row.year ∧ 0 < (pyStrip row.summary).length ∧
    Employee.find_by_id emps row.employee_id = true

instance (emps : List Int) (row : Row) : Decidable (rowValid emps row) := by
  unfold rowValid; infer_instance

theorem heapGet_set_self (h : Heap) (r : Ref) (o : ReviewObj) :
    heapGet (heapSet h r o) r = some o := by
  simp [heapGet, heapSet, List.find?]

theorem cacheGet_set_self (c : Cache) (k : Option Int) (r : Ref) :
    cacheGet (cacheSet c k r) k = some r := by
  simp [cacheGet, cacheSet, List.find?]

theorem cacheGet_erase_self (c : Cache) (k : Option Int) :
    cacheGet (cacheErase c k) k = none := by
  have hf : (cacheErase c k).find? (fun p => p.fst == k) = none := by
    rw [List.find?_eq_none]
    intro p hp
    have := List.of_mem_filter hp
    simpa using this
  simp [cacheGet, hf]

theorem find?_append_singleton {α : Type} (p : α → Bool) (l : List α) (a : α)
    (h : ∀ x ∈ l, ¬ p x = true) (ha : p a = true) :
    (l ++ [a]).find? p = some a := by
  induction l with
  | nil => simp [List.find?, ha]
  | cons b t ih =>
      have hb : p b = false := by
        cases hpb : p b with
        | true => exact absurd hpb (h b (List.mem_cons_self b t))
        | false => rfl
      simp only [List.cons_append, List.find?, hb]
      exact ih (fun x hx => h x (List.mem_cons_of_mem b hx))

theorem map_fix_of_self {α : Type} (f : α → α) (l : List α)
    (h : ∀ x ∈ l, f x = x) : l.map f = l := by
  induction l with
  | nil => rfl
  | cons a t ih =>
      simp only [List.map_cons, h a (List.mem_cons_self a t)]
      rw [ih (fun x hx => h x (List.mem_cons_of_mem a hx))]

theorem setYear_ok_of_le (o : ReviewObj) (n : Int) (h : 2000 ≤ n) :
    Review.setYear o (.vInt n) = .ok { o with year := n } := by
  simp [Review.setYear, h]

theorem setYear_ok_elim (o o' : ReviewObj) (n : Int)
    (h : Review.setYear o (.vInt n) = .ok o') :
    2000 ≤ n ∧ o' = { o with year := n } := by
  by_cases hn : 2000 ≤ n
  · refine ⟨hn, ?_⟩
    rw [setYear_ok_of_le o n hn] at h
    exact (Except.ok.inj h).symm
  · simp [Review.setYear, hn] at h

theorem setSummary_ok_of_len (o : ReviewObj) (t : String)
    (h : 0 < (pyStrip t).length) :
    Review.setSummary o (.vStr t) = .ok { o with summary := t } := by
  simp [Review.setSummary, h]

theorem setSummary_ok_elim (o o' : ReviewObj) (t : String)
    (h : Review.setSummary o (.vStr t) = .ok o') :
    0 < (pyStrip t).length ∧ o' = { o with summary := t } := by
  by_cases ht : 0 < (pyStrip t).length
  · refine ⟨ht, ?_⟩
    rw [setSummary_ok_of_len o t ht] at h
    exact (Except.ok.inj h).symm
  · simp [Review.setSummary, ht] at h

theorem setEmployeeId_ok_of_found (emps : List Int) (o : ReviewObj) (n : Int)
    (h : Employee.find_by_id emps n = true) :
    Review.setEmployeeId emps o (.vInt n) = .ok { o with employee_id := n } := by
  simp [Review.setEmployeeId, h]

theorem setEmployeeId_ok_elim (emps : List Int) (o o' : ReviewObj) (n : Int)
    (h : Review.setEmployeeId emps o (.vInt n) = .ok o') :
    Employee.find_by_id emps n = true ∧ o' = { o with employee_id := n } := by
  cases he : Employee.find_by_id emps n with
  | true =>
      refine ⟨rfl, ?_⟩
      rw [setEmployeeId_ok_of_found emps o n he] at h
      exact (Except.ok.inj h).symm
  | false => simp [Review.setEmployeeId, he] at h

theorem mkNew_ok_of (emps : List Int) (y : Int) (m : String) (e : Int)
    (id : Option Int) (h1 : 2000 ≤ y) (h2 : 0 < (pyStrip m).length)
    (h3 : Employee.find_by_id emps e = true) :
    ReviewObj.mkNew emps (.vInt y) (.vStr m) (.vInt e) id = .ok ⟨id, y, m, e⟩ := by
  simp [ReviewObj.mkNew, setYear_ok_of_le _ _ h1, setSummary_ok_of_len _ _ h2,
    setEmployeeId_ok_of_found _ _ _ h3]

theorem mkNew_ok_elim (emps : List Int) (y : Int) (m : String) (e : Int)
    (id : Option Int) (o : ReviewObj)
    (h : ReviewObj.mkNew emps (.vInt y) (.vStr m) (.vInt e) id = .ok o) :
    2000 ≤ y ∧ 0 < (pyStrip m).length ∧ Employee.find_by_id emps e = true ∧
      o = ⟨id, y, m, e⟩ := by
  unfold ReviewObj.mkNew at h
  cases hy : Review.setYear ⟨id, 0, "", 0⟩ (.vInt y) with
  | error err => rw [hy] at h; exact absurd h (by simp)
  | ok o1 =>
    rw [hy] at h
    dsimp only at h
    obtain ⟨hy1, hy2⟩ := setYear_ok_elim _ _ _ hy
    cases hm : Review.setSummary o1 (.vStr m) with
    | error err => rw [hm] at h; exact absurd h (by simp)
    | ok o2 =>
      rw [hm] at h
      dsimp only at h
      obtain ⟨hm1, hm2⟩ := setSummary_ok_elim _ _ _ hm
      obtain ⟨he1, he2⟩ := setEmployeeId_ok_elim _ _ _ _ h
      subst hy2 hm2 he2
      exact ⟨hy1, hm1, he1, rfl⟩

theorem instance_from_db_cached (s : State) (row : Row) (r : Ref) (o : ReviewObj)
    (hc : cacheGet s.cache (some row.id) = some r)
    (hh : heapGet s.heap r = some o)
    (hv : rowValid s.emps row) :
    Review.instance_from_db s row =
      .ok ({ s with heap := heapSet s.heap r { o with
        year := row.year, summary := row.summary,
        employee_id := row.employee_id } }, r) := by
  obtain ⟨h1, h2, h3⟩ := hv
  unfold Review.instance_from_db
  rw [hc]
  dsimp only
  rw [hh]
  dsimp only
  rw [setYear_ok_of_le _ _ h1]
  dsimp only
  rw [setSummary_ok_of_len _ _ h2]
  dsimp only
  rw [setEmployeeId_ok_of_found _ _ _ h3]

theorem instance_from_db_ok_elim (s s' : State) (row : Row) (r : Ref)
    (h : Review.instance_from_db s row = .ok (s', r)) :
    s'.db = s.db ∧ s'.emps = s.emps ∧
      cacheGet s'.cache (some row.id) = some r ∧
      (∃ o, heapGet s'.heap r = some o) ∧ rowValid s.emps row := by
  unfold Review.instance_from_db at h
  cases hc : cacheGet s.cache (some row.id) with
  | some r0 =>
    rw [hc] at h
    dsimp only at h
    cases hh : heapGet s.heap r0 with
    | none => rw [hh] at h; exact absurd h (by simp)
    | some o =>
      rw [hh] at h
      dsimp only at h
      cases hy : Review.setYear o (.vInt row.year) with
      | error err => rw [hy] at h; exact absurd h (by simp)
      | ok o1 =>
        rw [hy] at h
        dsimp only at h
        obtain ⟨hy1, hy2⟩ := setYear_ok_elim _ _ _ hy
        cases hm : Review.setSummary o1 (.vStr row.summary) with
        | error err => rw [hm] at h; exact absurd h (by simp)
        | ok o2 =>
          rw [hm] at h
          dsimp only at h
          obtain ⟨hm1, hm2⟩ := setSummary_ok_elim _ _ _ hm
          cases he : Review.setEmployeeId s.emps o2 (.vInt row.employee_id) with
          | error err => rw [he] at h; exact absurd h (by simp)
          | ok o3 =>
            rw [he] at h
            dsimp only at h
            obtain ⟨he1, he2⟩ := setEmployeeId_ok_elim _ _ _ _ he
            have hpair := Except.ok.inj h
            rw [Prod.mk.injEq] at hpair
            obtain ⟨hs, hr⟩ := hpair
            subst hs
            subst hr
            exact ⟨rfl, rfl, hc, ⟨o3, heapGet_set_self _ _ _⟩, hy1, hm1, he1⟩
  | none =>
    rw [hc] at h
    dsimp only at h
    cases hn : Review.new s (.vInt row.year) (.vStr row.summary)
        (.vInt row.employee_id) none with
    | error err => rw [hn] at h; exact absurd h (by simp)
    | ok p =>
      obtain ⟨s1, r1⟩ := p
      rw [hn] at h
      dsimp only at h
      unfold Review.new at hn
      cases hk : ReviewObj.mkNew s.emps (.vInt row.year) (.vStr row.summary)
          (.vInt row.employee_id) none with
      | error err => rw [hk] at hn; exact absurd hn (by simp)
      | ok o =>
        rw [hk] at hn
        dsimp only at hn
        obtain ⟨hk1, hk2, hk3, hk4⟩ := mkNew_ok_elim _ _ _ _ _ _ hk
        have hpair1 := Except.ok.inj hn
        rw [Prod.mk.injEq] at hpair1
        obtain ⟨hs1, hr1⟩ := hpair1
        subst hr1
        rw [← hs1] at h
        dsimp only at h
        rw [heapGet_set_self] at h
        dsimp only at h
        have hpair := Except.ok.inj h
        rw [Prod.mk.injEq] at hpair
        obtain ⟨hs, hr⟩ := hpair
        subst hs
        subst hr
        refine ⟨rfl, rfl, ?_, ?_, hk1, hk2, hk3⟩
        · exact cacheGet_set_self _ _ _
        · exact ⟨_, heapGet_set_self _ _ _⟩

theorem setYear_err_of_lt (o : ReviewObj) (n : Int) (h : n < 2000) :
    Review.setYear o (.vInt n) =
      .error (.valueError "Year must be integer >= 2000") := by
  have hn : ¬ 2000 ≤ n := not_le.mpr h
  simp [Review.setYear, hn]

theorem setSummary_err_of_len (o : ReviewObj) (t : String)
    (h : (pyStrip t).length = 0) :
    Review.setSummary o (.vStr t) =
      .error (.valueError "Summary must be non-empty string") := by
  have ht : ¬ 0 < (pyStrip t).length := by omega
  simp [Review.setSummary, ht]

theorem setEmployeeId_err_of_absent (emps : List Int) (o : ReviewObj) (n : Int)
    (h : Employee.find_by_id emps n = false) :
    Review.setEmployeeId emps o (.vInt n) =
      .error (.valueError "employee_id must reference existing Employee") := by
  simp [Review.setEmployeeId, h]

/-- C3: assigning `v` to `year` (constructor or later assignment) succeeds,
storing `v`, exactly when `v` is an integer `>= 2000`; any other value fails
with the validation error. -/
theorem year_setter_spec (o : ReviewObj) (v : PyVal) :
    (∀ n : Int, v = .vInt n →
      (2000 ≤ n → Review.setYear o v = .ok { o with year := n }) ∧
      (n < 2000 → Review.setYear o v =
        .error (.valueError "Year must be integer >= 2000"))) ∧
    ((∀ n : Int, v ≠ .vInt n) → Review.setYear o v =
      .error (.valueError "Year must be integer >= 2000")) := by
  constructor
  · rintro n rfl
    exact ⟨setYear_ok_of_le o n, setYear_err_of_lt o n⟩
  · intro hne
    cases v with
    | vInt n => exact absurd rfl (hne n)
    | vStr t => rfl
    | vNone => rfl
    | vOther => rfl

/-- Witness for C3: the `year` setter at the concrete values 2024 (accepted),
1999 (rejected) and a string (rejected). -/
theorem year_setter_spec_app :
    Review.setYear oW (.vInt 2024) = .ok { oW with year := 2024 } ∧
    Review.setYear oW (.vInt 1999) =
      .error (.valueError "Year must be integer >= 2000") ∧
    Review.setYear oW (.vStr "2024") =
      .error (.valueError "Year must be integer >= 2000") :=
  ⟨((year_setter_spec oW (.vInt 2024)).1 2024 rfl).1 (by decide),
   ((year_setter_spec oW (.vInt 1999)).1 1999 rfl).2 (by decide),
   (year_setter_spec oW (.vStr "2024")).2 (fun n h => by cases h)⟩

/-- C4: assigning `v` to `summary` succeeds exactly when `v` is a string whose
whitespace-trimmed form is non-empty, and then stores the original untrimmed
string verbatim; any other value fails with the validation error. -/
theorem summary_setter_spec (o : ReviewObj) (v : PyVal) :
    (∀ t : String, v = .vStr t →
      (0 < (pyStrip t).length →
        Review.setSummary o v = .ok { o with summary := t }) ∧
      ((pyStrip t).length = 0 → Review.setSummary o v =
        .error (.valueError "Summary must be non-empty string"))) ∧
    ((∀ t : String, v ≠ .vStr t) → Review.setSummary o v =
      .error (.valueError "Summary must be non-empty string")) := by
  constructor
  · rintro t rfl
    exact ⟨setSummary_ok_of_len o t, setSummary_err_of_len o t⟩
  · intro hne
    cases v with
    | vStr t => exact absurd rfl (hne t)
    | vInt n => rfl
    | vNone => rfl
    | vOther => rfl

/-- Witness for C4: the `summary` setter at a padded string (accepted and
stored untrimmed), an ASCII-whitespace-only string (rejected), a no-break
space (also whitespace to `str.strip()`, rejected) and an integer
(rejected). -/
theorem summary_setter_spec_app :
    Review.setSummary oW (.vStr "  B  ") = .ok { oW with summary := "  B  " } ∧
    Review.setSummary oW (.vStr "   ") =
      .error (.valueError "Summary must be non-empty string") ∧
    Review.setSummary oW (.vStr "\u00A0") =
      .error (.valueError "Summary must be non-empty string") ∧
    Review.setSummary oW (.vInt 7) =
      .error (.valueError "Summary must be non-empty string") :=
  ⟨((summary_setter_spec oW (.vStr "  B  ")).1 "  B  " rfl).1 (by decide),
   ((summary_setter_spec oW (.vStr "   ")).1 "   " rfl).2 (by decide),
   ((summary_setter_spec oW (.vStr "\u00A0")).1 "\u00A0" rfl).2 (by decide),
   (summary_setter_spec oW (.vInt 7)).2 (fun t h => by cases h)⟩

/-- C5: assigning `v` to `employee_id` succeeds, storing `v`, exactly when `v`
is an integer and the live Employee lookup at assignment time finds a record;
otherwise it fails with the validation error. -/
theorem employee_id_setter_spec (emps : List Int) (o : ReviewObj) (v : PyVal) :
    (∀ n : Int, v = .vInt n →
      (Employee.find_by_id emps n = true →
        Review.setEmployeeId emps o v = .ok { o with employee_id := n }) ∧
      (Employee.find_by_id emps n = false →
        Review.setEmployeeId emps o v =
          .error (.valueError "employee_id must reference existing Employee"))) ∧
    ((∀ n : Int, v ≠ .vInt n) → Review.setEmployeeId emps o v =
      .error (.valueError "employee_id must reference existing Employee")) := by
  constructor
  · rintro n rfl
    exact ⟨setEmployeeId_ok_of_found emps o n,
           setEmployeeId_err_of_absent emps o n⟩
  · intro hne
    cases v with
    | vInt n => exact absurd rfl (hne n)
    | vStr t => rfl
    | vNone => rfl
    | vOther => rfl

/-- Witness for C5: with only employee 1 existing, assigning 1 succeeds,
assigning 2 fails, and assigning a non-integer fails. -/
theorem employee_id_setter_spec_app :
    Review.setEmployeeId [1] oW (.vInt 1) = .ok { oW with employee_id := 1 } ∧
    Review.setEmployeeId [1] oW (.vInt 2) =
      .error (.valueError "employee_id must reference existing Employee") ∧
    Review.setEmployeeId [1] oW .vNone =
      .error (.valueError "employee_id must reference existing Employee") :=
  ⟨((employee_id_setter_spec [1] oW (.vInt 1)).1 1 rfl).1 (by decide),
   ((employee_id_setter_spec [1] oW (.vInt 2)).1 2 rfl).2 (by decide),
   (employee_id_setter_spec [1] oW .vNone).2 (fun n h => by cases h)⟩

/-- C6: `save` on a live instance inserts one new row holding the instance's
current `year`, `summary` and `employee_id`, assigns the generated row id to
the instance's `id`, and registers that very instance in the identity cache
under the new id. -/
theorem save_spec (s : State) (r : Ref) (o : ReviewObj)
    (h : heapGet s.heap r = some o) :
    ∃ s', Review.save s r = .ok s' ∧
      s'.db.rows = s.db.rows ++
        [⟨s.db.nextId, o.year, o.summary, o.employee_id⟩] ∧
      heapGet s'.heap r = some { o with id := some s.db.nextId } ∧
      cacheGet s'.cache (some s.db.nextId) = some r := by
  unfold Review.save
  rw [h]
  exact ⟨_, rfl, rfl, heapGet_set_self _ _ _, cacheGet_set_self _ _ _⟩

/-- Witness for C6: `save` on a transient instance in a fresh state. -/
theorem save_spec_app :
    ∃ s', Review.save sTransW 0 = .ok s' ∧
      s'.db.rows = sTransW.db.rows ++
        [⟨sTransW.db.nextId, oW.year, oW.summary, oW.employee_id⟩] ∧
      heapGet s'.heap 0 = some { oW with id := some sTransW.db.nextId } ∧
      cacheGet s'.cache (some sTransW.db.nextId) = some 0 :=
  save_spec sTransW 0 oW rfl

/-- C10: `delete` on a transient instance (`id` is `None`, no `None` key in
the cache) runs a `DELETE` matching no row and then raises `KeyError` from
the cache removal: the table, the cache and the instance (its `id` still
`None`) are all left exactly as they were. -/
theorem delete_transient_spec (s : State) (r : Ref) (o : ReviewObj)
    (hh : heapGet s.heap r = some o) (hid : o.id = none)
    (hc : cacheGet s.cache none = none) :
    Review.delete_ s r = (s, some .keyError) := by
  unfold Review.delete_
  rw [hh]
  dsimp only
  rw [hid, hc]
  dsimp only
  have hfilter : s.db.rows.filter
      (fun row => !((none : Option Int) == some row.id)) = s.db.rows := by
    apply List.filter_eq_self.mpr
    intro row _
    rfl
  rw [hfilter]

/-- Witness for C10: `delete` on the transient instance of `sTransW`. -/
theorem delete_transient_spec_app :
    Review.delete_ sTransW 0 = (sTransW, some .keyError) :=
  delete_transient_spec sTransW 0 oW rfl rfl rfl

theorem sqlSelectById_filter_self (rows : List Row) (n : Int) :
    sqlSelectById (rows.filter
      (fun row => !((some n : Option Int) == some row.id))) n = none := by
  unfold sqlSelectById
  rw [List.find?_eq_none]
  intro row hrow
  have hmem := List.of_mem_filter hrow
  simp at hmem ⊢
  omega

/-- C8: `delete` on a persisted instance with id `N` removes the row with id
`N` from the table, drops the cache entry for `N`, and resets the instance's
`id` to `None`; a subsequent `find_by_id(N)` returns the absence signal. -/
theorem delete_spec (s : State) (r r0 : Ref) (o : ReviewObj) (n : Int)
    (hh : heapGet s.heap r = some o) (hid : o.id = some n)
    (hc : cacheGet s.cache (some n) = some r0) :
    ∃ s', Review.delete_ s r = (s', none) ∧
      s'.db.rows = s.db.rows.filter (fun row => !(n == row.id)) ∧
      cacheGet s'.cache (some n) = none ∧
      heapGet s'.heap r = some { o with id := none } ∧
      Review.find_by_id s' n = .ok (s', none) := by
  unfold Review.delete_
  rw [hh]
  dsimp only
  rw [hid, hc]
  dsimp only
  refine ⟨_, rfl, rfl, cacheGet_erase_self _ _, heapGet_set_self _ _ _, ?_⟩
  unfold Review.find_by_id
  rw [show sqlSelectById (s.db.rows.filter
      (fun row => !((some n : Option Int) == some row.id))) n = none from
    sqlSelectById_filter_self s.db.rows n]

/-- Witness for C8: `delete` on the freshly created, cached instance of
`sCreatedW`. -/
theorem delete_spec_app :
    ∃ s', Review.delete_ sCreatedW 0 = (s', none) ∧
      s'.db.rows = sCreatedW.db.rows.filter (fun row => !((1 : Int) == row.id)) ∧
      cacheGet s'.cache (some 1) = none ∧
      heapGet s'.heap 0 = some ⟨none, 2023, "Good work", 1⟩ ∧
      Review.find_by_id s' 1 = .ok (s', none) :=
  delete_spec sCreatedW 0 0 ⟨some 1, 2023, "Good work", 1⟩ 1 rfl rfl rfl

/-- C1: when `find_by_id(N)` returns an instance, calling `find_by_id(N)`
again returns the identity-same instance (the same heap reference): the
canonical instance for a row id is unique. -/
theorem find_by_id_identity (s s' : State) (n : Int) (r : Ref)
    (h : Review.find_by_id s n = .ok (s', some r)) :
    ∃ s'', Review.find_by_id s' n = .ok (s'', some r) := by
  unfold Review.find_by_id at h
  cases hrow : sqlSelectById s.db.rows n with
  | none => rw [hrow] at h; exact absurd h (by simp)
  | some row =>
    rw [hrow] at h
    dsimp only at h
    cases hik : Review.instance_from_db s row with
    | error err => rw [hik] at h; exact absurd h (by simp)
    | ok p =>
      obtain ⟨s1, r1⟩ := p
      rw [hik] at h
      dsimp only at h
      have hpair := Except.ok.inj h
      rw [Prod.mk.injEq] at hpair
      obtain ⟨hs, hr⟩ := hpair
      subst hs
      have hr1 : r1 = r := Option.some.inj hr
      subst hr1
      obtain ⟨hdb, hemps, hcache, ⟨o, ho⟩, hvalid⟩ :=
        instance_from_db_ok_elim _ _ _ _ hik
      have hrow2 : sqlSelectById s1.db.rows n = some row := by
        rw [hdb]; exact hrow
      refine ⟨{ s1 with heap := heapSet s1.heap r1 { o with
        year := row.year, summary := row.summary,
        employee_id := row.employee_id } }, ?_⟩
      unfold Review.find_by_id
      rw [hrow2]
      dsimp only
      rw [instance_from_db_cached s1 row r1 o hcache ho
        (by rw [hemps]; exact hvalid)]

/-- Witness for C1: fetching row 1 of `sRowW` yields the instance at
reference 0, and fetching again from the resulting state `sRowW1` yields
reference 0 again. -/
theorem find_by_id_identity_app :
    ∃ s'', Review.find_by_id sRowW1 1 = .ok (s'', some 0) :=
  find_by_id_identity sRowW sRowW1 1 0 rfl

theorem create_ok (s : State) (y e : Int) (m : String)
    (hy : 2000 ≤ y) (hm : 0 < (pyStrip m).length)
    (he : Employee.find_by_id s.emps e = true) :
    Review.create s (.vInt y) (.vStr m) (.vInt e) =
      .ok (createdState s y e m, s.nextRef) := by
  unfold Review.create Review.new
  rw [mkNew_ok_of s.emps y m e none hy hm he]
  dsimp only
  unfold Review.save
  dsimp only
  rw [heapGet_set_self]
  dsimp only [createdState]

/-- C2: a successful `create(y, m, e)` followed by `find_by_id` on the new
row id yields an instance whose `id`, `year`, `summary` and `employee_id`
equal those of the created instance (indeed the very same instance). -/
theorem create_find_by_id_roundtrip (s : State) (y e : Int) (m : String)
    (hbound : ∀ row ∈ s.db.rows, row.id < s.db.nextId)
    (hy : 2000 ≤ y) (hm : 0 < (pyStrip m).length)
    (he : Employee.find_by_id s.emps e = true) :
    ∃ s1 r, Review.create s (.vInt y) (.vStr m) (.vInt e) = .ok (s1, r) ∧
      ∃ o, heapGet s1.heap r = some o ∧ o.id = some s.db.nextId ∧
        o.year = y ∧ o.summary = m ∧ o.employee_id = e ∧
        ∃ s2, Review.find_by_id s1 s.db.nextId = .ok (s2, some r) ∧
          heapGet s2.heap r = some o := by
  refine ⟨createdState s y e m, s.nextRef, create_ok s y e m hy hm he,
    ⟨some s.db.nextId, y, m, e⟩, heapGet_set_self _ _ _, rfl, rfl, rfl, rfl,
    ?_⟩
  have hsel : sqlSelectById (createdState s y e m).db.rows s.db.nextId =
      some ⟨s.db.nextId, y, m, e⟩ := by
    apply find?_append_singleton
    · intro row hmem hbeq
      have hlt := hbound row hmem
      rw [beq_iff_eq] at hbeq
      omega
    · simp
  have hcached := instance_from_db_cached (createdState s y e m)
    ⟨s.db.nextId, y, m, e⟩ s.nextRef ⟨some s.db.nextId, y, m, e⟩
    (cacheGet_set_self s.cache (some s.db.nextId) s.nextRef)
    (heapGet_set_self _ _ _) ⟨hy, hm, he⟩
  refine ⟨{ createdState s y e m with
    heap := heapSet (createdState s y e m).heap s.nextRef ⟨some s.db.nextId, y, m, e⟩ }, ?_, ?_⟩
  · unfold Review.find_by_id
    rw [hsel]
    dsimp only
    rw [hcached]
  · exact heapGet_set_self _ _ _

/-- Witness for C2: `create(2023, "Good work", 1)` on the fresh state `s0W`
followed by `find_by_id(1)`. -/
theorem create_find_by_id_roundtrip_app :
    ∃ s1 r, Review.create s0W (.vInt 2023) (.vStr "Good work") (.vInt 1) =
        .ok (s1, r) ∧
      ∃ o, heapGet s1.heap r = some o ∧ o.id = some s0W.db.nextId ∧
        o.year = 2023 ∧ o.summary = "Good work" ∧ o.employee_id = 1 ∧
        ∃ s2, Review.find_by_id s1 s0W.db.nextId = .ok (s2, some r) ∧
          heapGet s2.heap r = some o :=
  create_find_by_id_roundtrip s0W 2023 1 "Good work" (by simp [s0W])
    (by decide) (by decide) (by decide)

/-- C7: `create`, then mutate `summary` through the setter, then `update`:
the stored row now holds the instance's current field values, and a fresh
`find_by_id` on the row id yields an object whose `summary` is the new
value. -/
theorem update_roundtrip (s : State) (y e : Int) (m m2 : String)
    (hbound : ∀ row ∈ s.db.rows, row.id < s.db.nextId)
    (hy : 2000 ≤ y) (hm : 0 < (pyStrip m).length)
    (he : Employee.find_by_id s.emps e = true)
    (hm2 : 0 < (pyStrip m2).length) :
    ∃ s1 r, Review.create s (.vInt y) (.vStr m) (.vInt e) = .ok (s1, r) ∧
      ∃ s2, Review.assignSummary s1 r (.vStr m2) = .ok s2 ∧
        ∃ s3, Review.update s2 r = .ok s3 ∧
          ∃ s4, Review.find_by_id s3 s.db.nextId = .ok (s4, some r) ∧
            ∃ o, heapGet s4.heap r = some o ∧ o.summary = m2 := by
  refine ⟨createdState s y e m, s.nextRef, create_ok s y e m hy hm he,
    assignedState s y e m m2, ?_, updatedState s y e m m2, ?_, ?_⟩
  · unfold Review.assignSummary
    rw [show heapGet (createdState s y e m).heap s.nextRef =
      some ⟨some s.db.nextId, y, m, e⟩ from heapGet_set_self _ _ _]
    dsimp only
    rw [setSummary_ok_of_len _ _ hm2]
    rfl
  · unfold Review.update
    rw [show heapGet (assignedState s y e m m2).heap s.nextRef =
      some ⟨some s.db.nextId, y, m2, e⟩ from heapGet_set_self _ _ _]
    rfl
  · have hmap : ((s.db.rows ++ [(⟨s.db.nextId, y, m, e⟩ : Row)]).map
        (fun row => if (some s.db.nextId : Option Int) == some row.id then
          { row with year := y, summary := m2, employee_id := e } else row)) =
        s.db.rows ++ [(⟨s.db.nextId, y, m2, e⟩ : Row)] := by
      rw [List.map_append]
      have hold : (s.db.rows.map
          (fun row => if (some s.db.nextId : Option Int) == some row.id then
            ({ row with year := y, summary := m2, employee_id := e } : Row)
          else row)) = s.db.rows := by
        apply map_fix_of_self
        intro row hmem
        have hlt := hbound row hmem
        have hne : ((some s.db.nextId : Option Int) == some row.id) = false := by
          simp
          omega
        simp [hne]
      rw [hold]
      simp
    have hsel : sqlSelectById (updatedState s y e m m2).db.rows s.db.nextId =
        some ⟨s.db.nextId, y, m2, e⟩ := by
      dsimp only [updatedState, assignedState, createdState]
      rw [hmap]
      apply find?_append_singleton
      · intro row hmem hbeq
        have hlt := hbound row hmem
        rw [beq_iff_eq] at hbeq
        omega
      · simp
    have hcached := instance_from_db_cached (updatedState s y e m m2)
      ⟨s.db.nextId, y, m2, e⟩ s.nextRef ⟨some s.db.nextId, y, m2, e⟩
      (cacheGet_set_self s.cache (some s.db.nextId) s.nextRef)
      (heapGet_set_self _ _ _) ⟨hy, hm2, he⟩
    refine ⟨{ updatedState s y e m m2 with
      heap := heapSet (updatedState s y e m m2).heap s.nextRef ⟨some s.db.nextId, y, m2, e⟩ },
      ?_, ⟨some s.db.nextId, y, m2, e⟩, heapGet_set_self _ _ _, rfl⟩
    unfold Review.find_by_id
    rw [hsel]
    dsimp only
    rw [hcached]

/-- Witness for C7: `create(2023, "A", 1)`, reassign `summary` to `"B"`,
`update`, then `find_by_id(1)` on the fresh state `s0W`. -/
theorem update_roundtrip_app :
    ∃ s1 r, Review.create s0W (.vInt 2023) (.vStr "A") (.vInt 1) = .ok (s1, r) ∧
      ∃ s2, Review.assignSummary s1 r (.vStr "B") = .ok s2 ∧
        ∃ s3, Review.update s2 r = .ok s3 ∧
          ∃ s4, Review.find_by_id s3 s0W.db.nextId = .ok (s4, some r) ∧
            ∃ o, heapGet s4.heap r = some o ∧ o.summary = "B" :=
  update_roundtrip s0W 2023 1 "A" "B" (by simp [s0W]) (by decide) (by decide)
    (by decide) (by decide)

theorem heapGet_set_ne (h : Heap) (r r' : Ref) (o : ReviewObj)
    (hne : ¬ r' = r) : heapGet (heapSet h r o) r' = heapGet h r' := by
  have hb : (r == r') = false := by
    simp
    exact fun hh => hne hh.symm
  simp [heapGet, heapSet, List.find?, hb]

theorem cacheGet_set_ne (c : Cache) (k k' : Option Int) (r : Ref)
    (hne : ¬ k' = k) : cacheGet (cacheSet c k r) k' = cacheGet c k' := by
  have hb : (k == k') = false := by
    simp
    exact fun hh => hne hh.symm
  simp [cacheGet, cacheSet, List.find?, hb]

theorem instance_from_db_uncached (s : State) (row : Row)
    (hc : cacheGet s.cache (some row.id) = none)
    (hv : rowValid s.emps row) :
    Review.instance_from_db s row = .ok
      ({ s with
         heap := heapSet
           (heapSet s.heap s.nextRef ⟨none, row.year, row.summary, row.employee_id⟩)
           s.nextRef ⟨some row.id, row.year, row.summary, row.employee_id⟩,
         nextRef := s.nextRef + 1,
         cache := cacheSet s.cache (some row.id) s.nextRef }, s.nextRef) := by
  obtain ⟨h1, h2, h3⟩ := hv
  unfold Review.instance_from_db Review.new
  rw [hc]
  dsimp only
  rw [mkNew_ok_of s.emps row.year row.summary row.employee_id none h1 h2 h3]
  dsimp only
  rw [heapGet_set_self]

theorem instance_from_db_ok_cases (s s' : State) (row : Row) (r : Ref)
    (h : Review.instance_from_db s row = .ok (s', r)) :
    (∃ o3, cacheGet s.cache (some row.id) = some r ∧
      s' = { s with heap := heapSet s.heap r o3 }) ∨
    (cacheGet s.cache (some row.id) = none ∧ r = s.nextRef ∧
      ∃ o', s' = { s with
        heap := heapSet (heapSet s.heap s.nextRef o') s.nextRef
          { o' with id := some row.id },
        nextRef := s.nextRef + 1,
        cache := cacheSet s.cache (some row.id) s.nextRef }) := by
  unfold Review.instance_from_db at h
  cases hc : cacheGet s.cache (some row.id) with
  | some r0 =>
    rw [hc] at h
    dsimp only at h
    cases hh : heapGet s.heap r0 with
    | none => rw [hh] at h; exact absurd h (by simp)
    | some o =>
      rw [hh] at h
      dsimp only at h
      cases hy : Review.setYear o (.vInt row.year) with
      | error err => rw [hy] at h; exact absurd h (by simp)
      | ok o1 =>
        rw [hy] at h
        dsimp only at h
        cases hm : Review.setSummary o1 (.vStr row.summary) with
        | error err => rw [hm] at h; exact absurd h (by simp)
        | ok o2 =>
          rw [hm] at h
          dsimp only at h
          cases he : Review.setEmployeeId s.emps o2 (.vInt row.employee_id) with
          | error err => rw [he] at h; exact absurd h (by simp)
          | ok o3 =>
            rw [he] at h
            dsimp only at h
            have hpair := Except.ok.inj h
            rw [Prod.mk.injEq] at hpair
            obtain ⟨hs, hr⟩ := hpair
            subst hr
            exact Or.inl ⟨o3, rfl, hs.symm⟩
  | none =>
    rw [hc] at h
    dsimp only at h
    cases hn : Review.new s (.vInt row.year) (.vStr row.summary)
        (.vInt row.employee_id) none with
    | error err => rw [hn] at h; exact absurd h (by simp)
    | ok p =>
      obtain ⟨s1, r1⟩ := p
      rw [hn] at h
      dsimp only at h
      unfold Review.new at hn
      cases hk : ReviewObj.mkNew s.emps (.vInt row.year) (.vStr row.summary)
          (.vInt row.employee_id) none with
      | error err => rw [hk] at hn; exact absurd hn (by simp)
      | ok o =>
        rw [hk] at hn
        dsimp only at hn
        have hpair1 := Except.ok.inj hn
        rw [Prod.mk.injEq] at hpair1
        obtain ⟨hs1, hr1⟩ := hpair1
        subst hr1
        rw [← hs1] at h
        dsimp only at h
        rw [heapGet_set_self] at h
        dsimp only at h
        have hpair := Except.ok.inj h
        rw [Prod.mk.injEq] at hpair
        obtain ⟨hs, hr⟩ := hpair
        subst hr
        exact Or.inr ⟨rfl, rfl, o, hs.symm⟩

theorem instance_from_db_wf (s s' : State) (row : Row) (r : Ref)
    (hwf : stateWF s) (h : Review.instance_from_db s row = .ok (s', r)) :
    stateWF s' := by
  rcases instance_from_db_ok_cases s s' row r h with
    ⟨o3, hc, hs⟩ | ⟨hc, hr, o', hs⟩
  · subst hs
    intro k r' hk
    dsimp only at hk
    by_cases hrr : r' = r
    · subst hrr
      exact ⟨o3, heapGet_set_self _ _ _⟩
    · obtain ⟨o0, ho0⟩ := hwf k r' hk
      refine ⟨o0, ?_⟩
      dsimp only
      rw [heapGet_set_ne _ _ _ _ hrr]
      exact ho0
  · subst hs hr
    intro k r' hk
    dsimp only at hk
    by_cases hkk : k = some row.id
    · subst hkk
      rw [cacheGet_set_self] at hk
      have hr' : s.nextRef = r' := Option.some.inj hk
      subst hr'
      exact ⟨_, heapGet_set_self _ _ _⟩
    · rw [cacheGet_set_ne _ _ _ _ hkk] at hk
      obtain ⟨o0, ho0⟩ := hwf k r' hk
      by_cases hrr : r' = s.nextRef
      · subst hrr
        exact ⟨_, heapGet_set_self _ _ _⟩
      · refine ⟨o0, ?_⟩
        dsimp only
        rw [heapGet_set_ne _ _ _ _ hrr, heapGet_set_ne _ _ _ _ hrr]
        exact ho0

theorem instance_from_db_valid_ok (s : State) (row : Row)
    (hwf : stateWF s) (hv : rowValid s.emps row) :
    ∃ s' r, Review.instance_from_db s row = .ok (s', r) := by
  cases hc : cacheGet s.cache (some row.id) with
  | some r =>
    obtain ⟨o, ho⟩ := hwf (some row.id) r hc
    exact ⟨_, _, instance_from_db_cached s row r o hc ho hv⟩
  | none => exact ⟨_, _, instance_from_db_uncached s row hc hv⟩

theorem instance_from_db_invalid (s : State) (row : Row)
    (hwf : ∀ r, cacheGet s.cache (some row.id) = some r →
      ∃ o, heapGet s.heap r = some o)
    (hinv : ¬ rowValid s.emps row) :
    ∃ msg, Review.instance_from_db s row = .error (.valueError msg) := by
  by_cases h1 : 2000 ≤ row.year
  · by_cases h2 : 0 < (pyStrip row.summary).length
    · cases h3 : Employee.find_by_id s.emps row.employee_id with
      | true => exact absurd ⟨h1, h2, h3⟩ hinv
      | false =>
        refine ⟨"employee_id must reference existing Employee", ?_⟩
        unfold Review.instance_from_db
        cases hc : cacheGet s.cache (some row.id) with
        | some r =>
          obtain ⟨o, ho⟩ := hwf r hc
          dsimp only; rw [ho]; dsimp only
          rw [setYear_ok_of_le _ _ h1]; dsimp only
          rw [setSummary_ok_of_len _ _ h2]; dsimp only
          rw [setEmployeeId_err_of_absent _ _ _ h3]
        | none =>
          dsimp only
          unfold Review.new ReviewObj.mkNew
          rw [setYear_ok_of_le _ _ h1]; dsimp only
          rw [setSummary_ok_of_len _ _ h2]; dsimp only
          rw [setEmployeeId_err_of_absent _ _ _ h3]
    · refine ⟨"Summary must be non-empty string", ?_⟩
      have h2' : (pyStrip row.summary).length = 0 := by omega
      unfold Review.instance_from_db
      cases hc : cacheGet s.cache (some row.id) with
      | some r =>
        obtain ⟨o, ho⟩ := hwf r hc
        dsimp only; rw [ho]; dsimp only
        rw [setYear_ok_of_le _ _ h1]; dsimp only
        rw [setSummary_err_of_len _ _ h2']
      | none =>
        dsimp only
        unfold Review.new ReviewObj.mkNew
        rw [setYear_ok_of_le _ _ h1]; dsimp only
        rw [setSummary_err_of_len _ _ h2']
  · refine ⟨"Year must be integer >= 2000", ?_⟩
    have h1' : row.year < 2000 := by omega
    unfold Review.instance_from_db
    cases hc : cacheGet s.cache (some row.id) with
    | some r =>
      obtain ⟨o, ho⟩ := hwf r hc
      dsimp only; rw [ho]; dsimp only
      rw [setYear_err_of_lt _ _ h1']
    | none =>
      dsimp only
      unfold Review.new ReviewObj.mkNew
      rw [setYear_err_of_lt _ _ h1']

theorem instancesFromRows_invalid (rows : List Row) (s : State)
    (hwf : stateWF s) (hbad : ∃ row ∈ rows, ¬ rowValid s.emps row) :
    ∃ msg, Review.instancesFromRows s rows = .error (.valueError msg) := by
  induction rows generalizing s with
  | nil =>
    obtain ⟨row, hmem, _⟩ := hbad
    exact absurd hmem (List.not_mem_nil row)
  | cons row0 rest ih =>
    by_cases hv0 : rowValid s.emps row0
    · obtain ⟨s1, r1, hok⟩ := instance_from_db_valid_ok s row0 hwf hv0
      obtain ⟨row, hmem, hbadrow⟩ := hbad
      have hmem1 : row ∈ rest := by
        rcases List.mem_cons.mp hmem with h | h
        · exact absurd hv0 (h ▸ hbadrow)
        · exact h
      have hemps : s1.emps = s.emps :=
        (instance_from_db_ok_elim _ _ _ _ hok).2.1
      have hwf1 : stateWF s1 := instance_from_db_wf s s1 row0 r1 hwf hok
      obtain ⟨msg, hmsg⟩ :=
        ih s1 hwf1 ⟨row, hmem1, by rw [hemps]; exact hbadrow⟩
      refine ⟨msg, ?_⟩
      simp only [Review.instancesFromRows]
      rw [hok]
      dsimp only
      rw [hmsg]
    · obtain ⟨msg, hmsg⟩ := instance_from_db_invalid s row0
        (fun r hr => hwf (some row0.id) r hr) hv0
      refine ⟨msg, ?_⟩
      simp only [Review.instancesFromRows]
      rw [hmsg]

/-- C9: fetching re-validates — when a stored row violates a field invariant
(year, summary, or an employee id that no longer resolves), the read
operations raise the validation error instead of returning an instance:
`find_by_id` when that row is the one it fetches, and `get_all` whenever
that row is anywhere in the table. -/
theorem fetch_validation_spec (s : State) (n : Int) (row : Row)
    (hwf : stateWF s) (hinv : ¬ rowValid s.emps row) :
    (sqlSelectById s.db.rows n = some row →
      ∃ msg, Review.find_by_id s n = .error (.valueError msg)) ∧
    (row ∈ s.db.rows →
      ∃ msg, Review.get_all s = .error (.valueError msg)) := by
  constructor
  · intro hrow
    obtain ⟨msg, hmsg⟩ := instance_from_db_invalid s row
      (fun r hr => hwf (some row.id) r hr) hinv
    refine ⟨msg, ?_⟩
    unfold Review.find_by_id
    rw [hrow]
    dsimp only
    rw [hmsg]
  · intro hmem
    unfold Review.get_all
    exact instancesFromRows_invalid s.db.rows s hwf ⟨row, hmem, hinv⟩

/-- Witness for C9: in `sBad2W` the second row stores year 1999, violating
the invariant; `find_by_id(2)` raises, and `get_all` raises even though the
violating row is not the first one it processes. -/
theorem fetch_validation_spec_app :
    (∃ msg, Review.find_by_id sBad2W 2 = .error (.valueError msg)) ∧
    (∃ msg, Review.get_all sBad2W = .error (.valueError msg)) :=
  ⟨(fetch_validation_spec sBad2W 2 ⟨2, 1999, "Bad", 1⟩
      (fun k r hk => by simp [cacheGet, sBad2W] at hk) (by decide)).1 rfl,
   (fetch_validation_spec sBad2W 2 ⟨2, 1999, "Bad", 1⟩
      (fun k r hk => by simp [cacheGet, sBad2W] at hk) (by decide)).2 (by decide)⟩
